import Mathlib

/-!
Shallow embedding of `src/data/inference.py` (vaccination observation
pipeline) and verification of its specification.

Conventions used throughout:
* Calendar dates are embedded as integers: the number of days since
  2020-12-31, so `date(2021, 1, 1) = 1`, `date(2021, 1, 8) = 8` and
  `date(2021, 1, 9) = 9`.  Subtraction of dates yields the `.days` field
  of the Python `timedelta` directly; `timedelta(days=7) = 7`,
  `timedelta(weeks=12) = 84`.
* Counts (`Vaccinated.vaccinated`) are rationals: the Python values are
  ints for raw data and floats produced by exact arithmetic on ints for
  interpolated/extrapolated data, which rational arithmetic models
  exactly.
* Python functions that can raise (`assert`, division by zero, list
  index out of range, `max` of an empty sequence) are embedded in
  `Except String`; the string names the Python exception.
* Iteration over a Python `set` comprehension is modelled as iteration
  over the deduplicated list of elements (`List.dedup`); the claims
  settled here do not depend on the iteration order of a set.
-/

deriving instance DecidableEq for Except

namespace Vax

/-- Modelled from the spec: `data/types.py` is not part of the sources, so
the `Dose` enumeration is taken from spec section 3: values including
`DOSE_1`, `DOSE_2`, the derived `DOSE_2_PLUS_WAIT`, plus the wildcard. -/
inductive Dose where
  | all
  | DOSE_1
  | DOSE_2
  | DOSE_2_PLUS_WAIT
deriving DecidableEq, Repr

/-- Modelled from the spec: population group, a closed categorical
vocabulary with a distinguished wildcard member (spec section 3). -/
inductive Group where
  | all
  | grp (n : Nat)
deriving DecidableEq, Repr

/-- Modelled from the spec: location, a closed categorical vocabulary
with a distinguished wildcard member (spec section 3). -/
inductive Location where
  | all
  | loc (n : Nat)
deriving DecidableEq, Repr

/-- The wildcard test `is_all()` on a dose. -/
def Dose.is_all : Dose → Bool
  | .all => true
  | _ => false

/-- The wildcard test `is_all()` on a group. -/
def Group.is_all : Group → Bool
  | .all => true
  | _ => false

/-- The wildcard test `is_all()` on a location. -/
def Location.is_all : Location → Bool
  | .all => true
  | _ => false

/-- Modelled from the spec: `Source` provenance record (spec section 3);
`data_date` and `real_date` are days since 2020-12-31. -/
structure Source where
  origin : String
  data_date : ℤ
  real_date : ℤ
  period : String
deriving DecidableEq, Repr

/-- Modelled from the spec: `Slice`, the dimensional key (spec section 3). -/
structure Slice where
  dose : Dose
  group : Group
  location : Location
deriving DecidableEq, Repr

/-- Modelled from the spec: a `Vaccinated` observation (spec section 3).
The provenance flags default to `false`, matching constructions in
`inference.py` that pass only `interpolated=True`. -/
structure Vaccinated where
  source : Source
  vaccinated : ℚ
  slice : Slice
  extrapolated : Bool := false
  interpolated : Bool := false
deriving DecidableEq, Repr

/-- The three slice dimensions iterated by `__SLICE_DIMS`. -/
inductive Dim where
  | dose
  | group
  | location
deriving DecidableEq, Repr

/-- `__SLICE_DIMS = ["dose", "group", "location"]`. -/
def SLICE_DIMS : List Dim := [.dose, .group, .location]

/-- `[d for d in __SLICE_DIMS if d != dim]`. -/
def otherDims (dim : Dim) : List Dim :=
  SLICE_DIMS.filter (fun d => decide (d ≠ dim))

/-- The value of one slice dimension, as returned by Python
`getattr(slice, dim)`. -/
inductive DimV where
  | vDose (d : Dose)
  | vGroup (g : Group)
  | vLocation (c : Location)
deriving DecidableEq, Repr

/-- `is_all()` on a dimension value. -/
def DimV.is_all : DimV → Bool
  | .vDose d => d.is_all
  | .vGroup g => g.is_all
  | .vLocation c => c.is_all

/-- `getattr(slice, dim)`. -/
def Slice.get (s : Slice) : Dim → DimV
  | .dose => .vDose s.dose
  | .group => .vGroup s.group
  | .location => .vLocation s.location

/-- `replace(slice, **{dim: value})`.  A value of the wrong dimension
type leaves the slice unchanged; the pipeline only ever sets a dimension
to a value read from the same dimension. -/
def Slice.set (s : Slice) : Dim → DimV → Slice
  | .dose, .vDose d => { s with dose := d }
  | .group, .vGroup g => { s with group := g }
  | .location, .vLocation c => { s with location := c }
  | _, _ => s

/-- `__FIRST_DAILY_DATA = date(2021, 1, 9)`, in days since 2020-12-31. -/
def FIRST_DAILY_DATA : ℤ := 9

/-- The Python `int()` cast applied to an exact rational: truncation
toward zero. -/
def pyInt (q : ℚ) : ℤ := q.num.tdiv q.den

/-- Stable insertion of `x` into a list sorted ascending by the integer
key `key`: `x` goes in front of the first element whose key is not
strictly smaller.  Together with `sortKey` this models Python
`sorted(..., key=...)`, which is a stable ascending sort. -/
def insertKey (key : α → ℤ) (x : α) : List α → List α
  | [] => [x]
  | y :: ys => if key y < key x then y :: insertKey key x ys else x :: y :: ys

/-- Stable ascending sort by an integer key (Python `sorted`). -/
def sortKey (key : α → ℤ) : List α → List α
  | [] => []
  | x :: xs => insertKey key x (sortKey key xs)

/-- Sort observations ascending by `source.real_date`
(`sorted(vs, key=lambda v: v.source.real_date)`). -/
def sortByDate (vs : List Vaccinated) : List Vaccinated :=
  sortKey (fun v => v.source.real_date) vs

/-- `max` of a list of dates; `none` models the `ValueError` that Python
`max` raises on an empty sequence. -/
def listMax : List ℤ → Option ℤ
  | [] => none
  | x :: xs =>
    match listMax xs with
    | none => some x
    | some m => some (max x m)

/-- Run a fallible producer over every element in order, concatenating
outputs and stopping at the first error — the effect of a Python `for`
loop whose body `extend`s an accumulator and can raise. -/
def collectE (f : α → Except String (List β)) : List α → Except String (List β)
  | [] => .ok []
  | x :: xs =>
    match f x with
    | .error e => .error e
    | .ok ys =>
      match collectE f xs with
      | .error e => .error e
      | .ok zs => .ok (ys ++ zs)

/-!  ### `deaggregate_with_interpolation`  (inference.py lines 155-210) -/

/-- The weekly observations used as interpolation samples for an
aggregate: `period == "weekly"`, not wildcard on `dim`, and agreeing
with the aggregate on the two other dimensions (lines 160-169). -/
def weeklyMatching (aggregate : Vaccinated) (dim : Dim) (l : List Vaccinated) :
    List Vaccinated :=
  l.filter (fun v =>
    decide (v.source.period = "weekly") &&
    !(v.slice.get dim).is_all &&
    (otherDims dim).all (fun od => decide (v.slice.get od = aggregate.slice.get od)))

/-- Lines 180-187: the distinct weekly sample dates sorted by distance
to the real_date of the aggregate, truncated to the closest two, then
re-sorted chronologically. -/
def interpDates (aggregate : Vaccinated) (dim : Dim) (l : List Vaccinated) :
    List ℤ :=
  sortKey id
    ((sortKey (fun d => ((d - aggregate.source.real_date).natAbs : ℤ))
      ((weeklyMatching aggregate dim l).map (fun v => v.source.real_date))).dedup.take 2)

/-- Lines 189-193: the `(dim value, date, count)` tuples of the weekly
samples that fall on the chosen dates. -/
def dimDateVaccinated (aggregate : Vaccinated) (dim : Dim) (l : List Vaccinated)
    (ds : List ℤ) : List (DimV × ℤ × ℚ) :=
  ((weeklyMatching aggregate dim l).filter
      (fun v => decide (v.source.real_date ∈ ds))).map
    (fun v => (v.slice.get dim, v.source.real_date, v.vaccinated))

/-- Sum of the counts of the tuples on date `t` (a ratio denominator). -/
def sumOn (ddv : List (DimV × ℤ × ℚ)) (t : ℤ) : ℚ :=
  ((ddv.filter (fun p => decide (p.2.1 = t))).map (fun p => p.2.2)).sum

/-- Sum of the counts of the tuples on date `t` carrying dimension value
`dv` (a ratio numerator). -/
def sumOnVal (ddv : List (DimV × ℤ × ℚ)) (t : ℤ) (dv : DimV) : ℚ :=
  ((ddv.filter (fun p => decide (p.2.1 = t) && decide (p.1 = dv))).map
    (fun p => p.2.2)).sum

/-- Lines 196-209: the observation emitted for one dimension value
`dv`: ratios on the two chosen dates, linear interpolation of the
ratio to the data_date of the aggregate, `int()`-cast count, the slice
of the aggregate with `dim` set to `dv`, flagged interpolated. -/
def interpEmit (aggregate : Vaccinated) (dim : Dim) (ddv : List (DimV × ℤ × ℚ))
    (d0 d1 : ℤ) (dv : DimV) : Vaccinated :=
  let ratio0 := sumOnVal ddv d0 dv / sumOn ddv d0
  let ratio1 := sumOnVal ddv d1 dv / sumOn ddv d1
  let ratio_delta_per_day := (ratio1 - ratio0) / ((d1 - d0 : ℤ) : ℚ)
  let ratio := ratio0 +
    ratio_delta_per_day * ((aggregate.source.data_date - d0 : ℤ) : ℚ)
  { source := aggregate.source,
    vaccinated := (pyInt (aggregate.vaccinated * ratio) : ℚ),
    slice := aggregate.slice.set dim dv,
    interpolated := true }

/-- Lines 155-210.  With fewer than 2 weekly samples the function prints
a diagnostic and yields nothing (`.ok []`).  Otherwise it interpolates
the per-value ratio between the two chosen dates.  A single distinct
sample date makes Python evaluate `dates[1]` out of range
(`IndexError`), unless the first ratio denominator is zero, which
raises `ZeroDivisionError` first; a zero denominator on either chosen
date also raises `ZeroDivisionError`. -/
def deaggregate_with_interpolation (aggregate : Vaccinated) (dim : Dim)
    (l : List Vaccinated) : Except String (List Vaccinated) :=
  let weekly := weeklyMatching aggregate dim l
  if weekly.length < 2 then
    .ok []
  else
    match interpDates aggregate dim l with
    | [d0, d1] =>
      let ddv := dimDateVaccinated aggregate dim l [d0, d1]
      if sumOn ddv d0 = 0 then .error "ZeroDivisionError"
      else if sumOn ddv d1 = 0 then .error "ZeroDivisionError"
      else
        .ok ((weekly.map (fun v => v.slice.get dim)).dedup.map
          (interpEmit aggregate dim ddv d0 d1))
    | [d0] =>
      let ddv := dimDateVaccinated aggregate dim l [d0]
      if sumOn ddv d0 = 0 then .error "ZeroDivisionError"
      else .error "IndexError"
    | _ => .error "IndexError"

/-!  ### `add_deaggregates`  (inference.py lines 13-46) -/

/-- `[v for v in vaccinated if v.source.period == "daily"]` (line 15). -/
def vaccinatedDaily (l : List Vaccinated) : List Vaccinated :=
  l.filter (fun v => decide (v.source.period = "daily"))

/-- The set `{v.source.real_date for v in vaccinated_daily}` (line 19). -/
def dailyDates (l : List Vaccinated) : List ℤ :=
  ((vaccinatedDaily l).map (fun v => v.source.real_date)).dedup

/-- `[v for v in vaccinated_daily if v.source.real_date == real_date]`
(line 20). -/
def onDate (l : List Vaccinated) (r : ℤ) : List Vaccinated :=
  (vaccinatedDaily l).filter (fun v => decide (v.source.real_date = r))

/-- The aggregates for dimension `dim` on one date: observations that
are wildcard on `dim` (line 22). -/
def aggregatesOn (l : List Vaccinated) (r : ℤ) (dim : Dim) : List Vaccinated :=
  (onDate l r).filter (fun v => (v.slice.get dim).is_all)

/-- Lines 25-36: the peer (`unaggregates`) filter for one aggregate.
Besides requiring agreement on the two non-`dim` dimensions, the code
also hard-codes equality of `group` and `location` with the aggregate. -/
def unaggregates (aggregate : Vaccinated) (dim : Dim)
    (vaccinated_on_date : List Vaccinated) : List Vaccinated :=
  vaccinated_on_date.filter (fun v =>
    !(v.slice.get dim).is_all &&
    (otherDims dim).all (fun od =>
      decide (v.slice.get od = aggregate.slice.get od) &&
      !(v.slice.get od).is_all) &&
    decide (v.slice.group = aggregate.slice.group) &&
    decide (v.slice.location = aggregate.slice.location))

/-- Line 41: `unaggregate_sum`, the sum of the counts of the peers of
an aggregate. -/
def peerSum (l : List Vaccinated) (r : ℤ) (dim : Dim)
    (aggregate : Vaccinated) : ℚ :=
  ((unaggregates aggregate dim (onDate l r)).map (fun v => v.vaccinated)).sum

/-- Line 42: `difference`, the absolute difference between the count of
an aggregate and its peer sum. -/
def peerDiff (l : List Vaccinated) (r : ℤ) (dim : Dim)
    (aggregate : Vaccinated) : ℚ :=
  |aggregate.vaccinated - peerSum l r dim aggregate|

/-- Lines 37-45: the body of the innermost loop, for one aggregate.  No
peers: deaggregate by interpolation.  Peers present: check the
tolerance assertion and emit nothing.  A zero peer sum makes Python
raise `ZeroDivisionError` when the absolute difference is not below
1000, since `assert` evaluates `difference / unaggregate_sum` then. -/
def perAggregate (l : List Vaccinated) (r : ℤ) (dim : Dim)
    (aggregate : Vaccinated) : Except String (List Vaccinated) :=
  if (unaggregates aggregate dim (onDate l r)).length = 0 then
    deaggregate_with_interpolation aggregate dim l
  else
    if peerDiff l r dim aggregate < 1000 then .ok []
    else if peerSum l r dim aggregate = 0 then .error "ZeroDivisionError"
    else if peerDiff l r dim aggregate / peerSum l r dim aggregate < 1/20 then .ok []
    else .error "AssertionError"

/-- Lines 13-46: `add_deaggregates`.  Iterates dimensions, then the
daily dates, then the aggregates on each date, accumulating emitted
deaggregates, and finally returns the input extended by them. -/
def add_deaggregates (l : List Vaccinated) : Except String (List Vaccinated) :=
  (collectE (fun dim =>
    collectE (fun r =>
      collectE (perAggregate l r dim) (aggregatesOn l r dim))
      (dailyDates l))
    SLICE_DIMS).map (fun deaggs => l ++ deaggs)

/-!  ### `remove_aggregates`  (inference.py lines 49-58) -/

/-- The retention predicate of `remove_aggregates`, mirroring the three
`continue` tests of the generator loop. -/
def keepObs (v : Vaccinated) : Bool :=
  if v.slice.group.is_all || v.slice.dose.is_all then false
  else if !v.slice.location.is_all then false
  else if decide (FIRST_DAILY_DATA ≤ v.source.real_date) &&
      decide (v.source.period = "weekly") then false
  else true

/-- Lines 49-58: `remove_aggregates`, a pure filter. -/
def remove_aggregates (l : List Vaccinated) : List Vaccinated :=
  l.filter keepObs

/-!  ### cumulative conversion  (inference.py lines 61-80) -/

/-- The slice set `{v.slice for v in vaccinated}` of a collection. -/
def slicesOf (l : List Vaccinated) : List Slice :=
  (l.map (fun v => v.slice)).dedup

/-- `[v for v in vaccinated if v.slice == slice_]`. -/
def groupOf (l : List Vaccinated) (s : Slice) : List Vaccinated :=
  l.filter (fun v => decide (v.slice = s))

/-- Lines 67-69: first differences along `zip(vs, vs[1:])`; each emitted
observation is `replace(v2, vaccinated=v2.vaccinated - v1.vaccinated)`
where `v1` is the original predecessor. -/
def firstDiffs (prev : Vaccinated) : List Vaccinated → List Vaccinated
  | [] => []
  | v2 :: rest =>
    { v2 with vaccinated := v2.vaccinated - prev.vaccinated } :: firstDiffs v2 rest

/-- The per-slice body of `make_non_cumulative`: sort by `real_date`,
yield the first unchanged, then the first differences.  An empty group
cannot occur for a slice drawn from the collection itself. -/
def ncBlock (l : List Vaccinated) (s : Slice) : List Vaccinated :=
  match sortByDate (groupOf l s) with
  | [] => []
  | v0 :: rest => v0 :: firstDiffs v0 rest

/-- Lines 61-69: `make_non_cumulative`. -/
def make_non_cumulative (l : List Vaccinated) : List Vaccinated :=
  (slicesOf l).flatMap (ncBlock l)

/-- Lines 77-80: running prefix sums,
`replace(v, vaccinated=cumulative)`. -/
def cumsFrom (acc : ℚ) : List Vaccinated → List Vaccinated
  | [] => []
  | v :: rest =>
    { v with vaccinated := acc + v.vaccinated } :: cumsFrom (acc + v.vaccinated) rest

/-- The per-slice body of `make_cumulative`. -/
def cumBlock (l : List Vaccinated) (s : Slice) : List Vaccinated :=
  cumsFrom 0 (sortByDate (groupOf l s))

/-- Lines 72-80: `make_cumulative`. -/
def make_cumulative (l : List Vaccinated) : List Vaccinated :=
  (slicesOf l).flatMap (cumBlock l)

/-!  ### `add_extrapolations`  (inference.py lines 83-108) -/

/-- Line 88-94: the regression points of one slice — `(days since the
global max date, count)` for the observations of the slice within the
trailing seven days. -/
def windowPoints (l : List Vaccinated) (maxDate : ℤ) (s : Slice) :
    List (ℤ × ℚ) :=
  (l.filter (fun v =>
      decide (v.slice = s) && decide (maxDate - 7 < v.source.real_date))).map
    (fun v => (v.source.real_date - maxDate, v.vaccinated))

/-- The slope of the degree-1 least-squares fit of `np.polyfit`, by the
normal equations `m = (n·Σxy − Σx·Σy) / (n·Σx² − (Σx)²)`. -/
def fitSlope (pts : List (ℤ × ℚ)) : ℚ :=
  ((pts.length : ℚ) * (pts.map (fun p => ((p.1 : ℚ)) * p.2)).sum -
    (pts.map (fun p => (p.1 : ℚ))).sum * (pts.map (fun p => p.2)).sum) /
  ((pts.length : ℚ) * (pts.map (fun p => ((p.1 : ℚ)) * ((p.1 : ℚ)))).sum -
    (pts.map (fun p => (p.1 : ℚ))).sum * (pts.map (fun p => (p.1 : ℚ))).sum)

/-- The intercept of the degree-1 least-squares fit,
`b = (Σy − m·Σx) / n`. -/
def fitIntercept (pts : List (ℤ × ℚ)) : ℚ :=
  ((pts.map (fun p => p.2)).sum -
    fitSlope pts * (pts.map (fun p => (p.1 : ℚ))).sum) / (pts.length : ℚ)

/-- Lines 98-107: the 51 synthetic predictions of one slice, for
`plus_weeks in range(1, 52)`. -/
def predictionsFor (maxDate : ℤ) (s : Slice) (m b : ℚ) : List Vaccinated :=
  (List.range' 1 51).map (fun k : Nat =>
    { source := { origin := "prediction", data_date := maxDate + 7 * (k : ℤ),
                  real_date := maxDate + 7 * (k : ℤ), period := "daily" },
      vaccinated := m * ((k : ℚ) * 7) + b,
      slice := s,
      extrapolated := true })

/-- The per-slice body of the forecaster loop: fewer than two window
points skip the slice (lines 95-96). -/
def extrapolationBlock (l : List Vaccinated) (maxDate : ℤ) (s : Slice) :
    List Vaccinated :=
  if (windowPoints l maxDate s).length ≤ 1 then []
  else predictionsFor maxDate s (fitSlope (windowPoints l maxDate s))
    (fitIntercept (windowPoints l maxDate s))

/-- Lines 83-108: `add_extrapolations`.  Line 84 takes the maximum
`real_date` over the whole collection, raising `ValueError` when the
collection is empty. -/
def add_extrapolations (l : List Vaccinated) : Except String (List Vaccinated) :=
  match listMax (l.map (fun v => v.source.real_date)) with
  | none => .error "ValueError: max() arg is an empty sequence"
  | some maxDate => .ok (l ++ (slicesOf l).flatMap (extrapolationBlock l maxDate))

/-!  ### `add_12w_dose_lag`  (inference.py lines 111-134) -/

/-- Lines 112-116: the dict
`{(real_date, location, group): count for dose-1 observations}`.
A Python dict comprehension keeps the last entry written for a key, so
the lookup returns the count of the last matching dose-1 observation. -/
def dose1s_by_date_slice (l : List Vaccinated) (k : ℤ × Location × Group) :
    Option ℚ :=
  (((l.filter (fun v =>
        decide (v.slice.dose = Dose.DOSE_1) &&
        decide ((v.source.real_date, v.slice.location, v.slice.group) = k))).map
      (fun v => v.vaccinated)).getLast?)

/-- Lines 119-133: the loop body of `add_12w_dose_lag` for one
observation. -/
def doseLagAdjust (l : List Vaccinated) (v : Vaccinated) : Vaccinated :=
  if v.slice.dose ≠ Dose.DOSE_2 then v
  else
    match dose1s_by_date_slice l
        (v.source.real_date - 84, v.slice.location, v.slice.group) with
    | none => v
    | some dose1 =>
      { v with vaccinated := max v.vaccinated dose1, extrapolated := true }

/-- Lines 111-134: `add_12w_dose_lag`; the Python loop appends exactly
one output observation per input observation, in order. -/
def add_12w_dose_lag (l : List Vaccinated) : List Vaccinated :=
  l.map (doseLagAdjust l)

/-!  ### `add_dose_2_wait`  (inference.py lines 137-152) -/

/-- Line 138: maximum `real_date` over the non-extrapolated
observations; `none` when there are none (Python `ValueError`). -/
def maxNonExtrapolated (l : List Vaccinated) : Option ℤ :=
  listMax ((l.filter (fun v => !v.extrapolated)).map (fun v => v.source.real_date))

/-- Lines 140-151: the synthetic wait observation derived from one
dose-2 observation. -/
def waitObs (maxDate : ℤ) (v : Vaccinated) : Vaccinated :=
  { v with
    slice := { v.slice with dose := Dose.DOSE_2_PLUS_WAIT },
    source := { v.source with real_date := v.source.real_date + 7 },
    extrapolated := decide (maxDate < v.source.real_date + 7) }

/-- Lines 137-152: `add_dose_2_wait`. -/
def add_dose_2_wait (l : List Vaccinated) : Except String (List Vaccinated) :=
  match maxNonExtrapolated l with
  | none => .error "ValueError: max() arg is an empty sequence"
  | some maxDate =>
    .ok (l ++ (l.filter (fun v => decide (v.slice.dose = Dose.DOSE_2))).map
      (waitObs maxDate))

/-!  ### Definitions following the words of the spec, for comparison
with the source-derived definitions above. -/

/-- The peer set as spec section 4.1 step 2 describes it: non-wildcard
on `d` observations of the same date sharing the values of the
aggregate on the other two dimensions, both of which must themselves
be non-wildcard.  (No further restriction.) -/
def claimPeers (aggregate : Vaccinated) (dim : Dim)
    (vaccinated_on_date : List Vaccinated) : List Vaccinated :=
  vaccinated_on_date.filter (fun v =>
    !(v.slice.get dim).is_all &&
    (otherDims dim).all (fun od =>
      decide (v.slice.get od = aggregate.slice.get od) &&
      !(v.slice.get od).is_all))

/-- Spec section 4.1 step d: the share of dimension value `dv` among
the matching weekly samples on date `t`:
`(sum of counts of dv on t) / (sum of all counts on t)`. -/
def specRatioAt (aggregate : Vaccinated) (dim : Dim) (l : List Vaccinated)
    (t : ℤ) (dv : DimV) : ℚ :=
  (((weeklyMatching aggregate dim l).filter (fun v =>
      decide (v.source.real_date = t) &&
      decide (v.slice.get dim = dv))).map (fun v => v.vaccinated)).sum /
  (((weeklyMatching aggregate dim l).filter (fun v =>
      decide (v.source.real_date = t))).map (fun v => v.vaccinated)).sum

/-- Spec section 4.1 step e: the ratio interpolated linearly to the
data_date of the aggregate,
`ratio0 + (ratio1 - ratio0) / (date1 - date0).days * (data_date - date0).days`. -/
def specRatio (aggregate : Vaccinated) (dim : Dim) (l : List Vaccinated)
    (d0 d1 : ℤ) (dv : DimV) : ℚ :=
  specRatioAt aggregate dim l d0 dv +
    (specRatioAt aggregate dim l d1 dv - specRatioAt aggregate dim l d0 dv) /
      ((d1 - d0 : ℤ) : ℚ) * ((aggregate.source.data_date - d0 : ℤ) : ℚ)

/-- Spec section 4.1 step f: the emitted observation — same source as
the aggregate, count `int(aggregate.count * ratio)`, the slice of the
aggregate with dimension `dim` set to `dv`, flagged interpolated. -/
def specEmit (aggregate : Vaccinated) (dim : Dim) (l : List Vaccinated)
    (d0 d1 : ℤ) (dv : DimV) : Vaccinated :=
  { source := aggregate.source,
    vaccinated := (pyInt (aggregate.vaccinated * specRatio aggregate dim l d0 d1 dv) : ℚ),
    slice := aggregate.slice.set dim dv,
    interpolated := true }

/-- Spec section 4.4: the least-squares slope written with centred
moments, `m = Σ(x - mean x)(y - mean y) / Σ(x - mean x)²`. -/
def specSlope (pts : List (ℤ × ℚ)) : ℚ :=
  (pts.map (fun p =>
    ((p.1 : ℚ) - (pts.map (fun q => (q.1 : ℚ))).sum / (pts.length : ℚ)) *
    (p.2 - (pts.map (fun q => q.2)).sum / (pts.length : ℚ)))).sum /
  (pts.map (fun p =>
    ((p.1 : ℚ) - (pts.map (fun q => (q.1 : ℚ))).sum / (pts.length : ℚ)) *
    ((p.1 : ℚ) - (pts.map (fun q => (q.1 : ℚ))).sum / (pts.length : ℚ)))).sum

/-- Spec section 4.4: the least-squares intercept
`b = mean y - m * mean x`. -/
def specInterceptOf (pts : List (ℤ × ℚ)) : ℚ :=
  (pts.map (fun p => p.2)).sum / (pts.length : ℚ) -
    specSlope pts * ((pts.map (fun p => (p.1 : ℚ))).sum / (pts.length : ℚ))

/-- Spec section 4.4: the forecast record for week `k`: origin
`prediction`, period `daily`, `data_date = real_date = max_date + k`
weeks, value `m * 7k + b`, flagged extrapolated. -/
def specPredict (maxDate : ℤ) (s : Slice) (m b : ℚ) (k : Nat) : Vaccinated :=
  { source := { origin := "prediction", data_date := maxDate + 7 * (k : ℤ),
                real_date := maxDate + 7 * (k : ℤ), period := "daily" },
    vaccinated := m * (7 * (k : ℚ)) + b,
    slice := s,
    extrapolated := true }

/-- Spec section 4.5: the synthetic dose-2-plus-wait observation of a
dose-2 observation dated `D`: dose `DOSE_2_PLUS_WAIT`, real_date
`D + 7`, identical count, extrapolated exactly when `D + 7` exceeds
the maximum non-extrapolated date. -/
def specWait (maxDate : ℤ) (v : Vaccinated) : Vaccinated :=
  { v with
    slice := { v.slice with dose := Dose.DOSE_2_PLUS_WAIT },
    source := { v.source with real_date := v.source.real_date + 7 },
    extrapolated := decide (v.source.real_date + 7 > maxDate) }

/-- Whether some dose-1 observation exists at the key, as spec section
4.5 phrases the `add_12w_dose_lag` lookup condition. -/
def specDose1Exists (l : List Vaccinated) (k : ℤ × Location × Group) : Prop :=
  ∃ w ∈ l, w.slice.dose = Dose.DOSE_1 ∧
    (w.source.real_date, w.slice.location, w.slice.group) = k

/-- The failure condition of one aggregate inside `add_deaggregates`:
either peers exist and the tolerance check fails (a zero peer sum with
a difference of at least 1000 divides by zero), or no peers exist and
the interpolation itself raises. -/
def aggFailure (l : List Vaccinated) (r : ℤ) (dim : Dim)
    (aggregate : Vaccinated) : Prop :=
  (unaggregates aggregate dim (onDate l r) ≠ [] ∧
    1000 ≤ peerDiff l r dim aggregate ∧
    (peerSum l r dim aggregate = 0 ∨
      1/20 ≤ peerDiff l r dim aggregate / peerSum l r dim aggregate)) ∨
  (unaggregates aggregate dim (onDate l r) = [] ∧
    ∃ e, deaggregate_with_interpolation aggregate dim l = .error e)

/-!  ### Concrete inputs used by witnesses and counterexamples. -/

/-- The aggregate of the interpolation example of spec section 8:
total 100, dated 2021-01-04, wildcard on dose. -/
def exC1agg : Vaccinated :=
  { source := { origin := "gov", data_date := 4, real_date := 4, period := "daily" },
    vaccinated := 100,
    slice := { dose := .all, group := .grp 1, location := .loc 1 } }

/-- Weekly samples A=60, B=40 on 2021-01-01 and A=45, B=55 on
2021-01-08 (dimension values A = dose 1, B = dose 2), together with
the aggregate. -/
def exC1 : List Vaccinated :=
  [exC1agg,
   { source := { origin := "gov", data_date := 1, real_date := 1, period := "weekly" },
     vaccinated := 60,
     slice := { dose := .DOSE_1, group := .grp 1, location := .loc 1 } },
   { source := { origin := "gov", data_date := 1, real_date := 1, period := "weekly" },
     vaccinated := 40,
     slice := { dose := .DOSE_2, group := .grp 1, location := .loc 1 } },
   { source := { origin := "gov", data_date := 8, real_date := 8, period := "weekly" },
     vaccinated := 45,
     slice := { dose := .DOSE_1, group := .grp 1, location := .loc 1 } },
   { source := { origin := "gov", data_date := 8, real_date := 8, period := "weekly" },
     vaccinated := 55,
     slice := { dose := .DOSE_2, group := .grp 1, location := .loc 1 } }]

/-- The interpolation output on `exC1`: 53 for dose 1 and 46 for
dose 2 (`int(100 * (0.6 - 0.15/7*3)) = 53`,
`int(100 * (0.4 + 0.15/7*3)) = 46`). -/
def exC1out : List Vaccinated :=
  [{ source := exC1agg.source, vaccinated := 53,
     slice := { dose := .DOSE_1, group := .grp 1, location := .loc 1 },
     interpolated := true },
   { source := exC1agg.source, vaccinated := 46,
     slice := { dose := .DOSE_2, group := .grp 1, location := .loc 1 },
     interpolated := true }]

/-- A daily aggregate wildcard on group (for dimension `group`). -/
def exC2agg : Vaccinated :=
  { source := { origin := "gov", data_date := 4, real_date := 4, period := "daily" },
    vaccinated := 100,
    slice := { dose := .DOSE_1, group := .all, location := .loc 1 } }

/-- A same-date daily observation that the spec wording makes a peer of
`exC2agg` for dimension `group` (non-wildcard on group, agreeing on
dose and location, both non-wildcard). -/
def exC2peer : Vaccinated :=
  { source := { origin := "gov", data_date := 4, real_date := 4, period := "daily" },
    vaccinated := 100,
    slice := { dose := .DOSE_1, group := .grp 1, location := .loc 1 } }

/-- `exC2agg` and `exC2peer` together with weekly group samples that
let the group dimension interpolate. -/
def exC2 : List Vaccinated :=
  [exC2agg, exC2peer,
   { source := { origin := "gov", data_date := 1, real_date := 1, period := "weekly" },
     vaccinated := 60,
     slice := { dose := .DOSE_1, group := .grp 1, location := .loc 1 } },
   { source := { origin := "gov", data_date := 1, real_date := 1, period := "weekly" },
     vaccinated := 40,
     slice := { dose := .DOSE_1, group := .grp 2, location := .loc 1 } },
   { source := { origin := "gov", data_date := 8, real_date := 8, period := "weekly" },
     vaccinated := 45,
     slice := { dose := .DOSE_1, group := .grp 1, location := .loc 1 } },
   { source := { origin := "gov", data_date := 8, real_date := 8, period := "weekly" },
     vaccinated := 55,
     slice := { dose := .DOSE_1, group := .grp 2, location := .loc 1 } }]

/-- The two observations `add_deaggregates` emits on `exC2` (through
interpolation on the group dimension, although a spec-worded peer
exists). -/
def exC2out : List Vaccinated :=
  [{ source := exC2agg.source, vaccinated := 53,
     slice := { dose := .DOSE_1, group := .grp 1, location := .loc 1 },
     interpolated := true },
   { source := exC2agg.source, vaccinated := 46,
     slice := { dose := .DOSE_1, group := .grp 2, location := .loc 1 },
     interpolated := true }]

/-- An aggregate whose weekly samples land on a single distinct date. -/
def exC3agg : Vaccinated :=
  { source := { origin := "gov", data_date := 4, real_date := 4, period := "daily" },
    vaccinated := 100,
    slice := { dose := .all, group := .grp 1, location := .loc 1 } }

/-- Two weekly samples on the same date: 2 samples, 1 distinct date. -/
def exC3 : List Vaccinated :=
  [exC3agg,
   { source := { origin := "gov", data_date := 1, real_date := 1, period := "weekly" },
     vaccinated := 60,
     slice := { dose := .DOSE_1, group := .grp 1, location := .loc 1 } },
   { source := { origin := "gov", data_date := 1, real_date := 1, period := "weekly" },
     vaccinated := 40,
     slice := { dose := .DOSE_2, group := .grp 1, location := .loc 1 } }]

/-- A single weekly sample: fewer than 2 samples, the recoverable
skip. -/
def exC3b : List Vaccinated :=
  [exC3agg,
   { source := { origin := "gov", data_date := 1, real_date := 1, period := "weekly" },
     vaccinated := 60,
     slice := { dose := .DOSE_1, group := .grp 1, location := .loc 1 } }]

/-- An aggregate with no peers whose weekly samples sum to zero on the
nearer date: interpolation divides by zero. -/
def exC4 : List Vaccinated :=
  [{ source := { origin := "gov", data_date := 4, real_date := 4, period := "daily" },
     vaccinated := 100,
     slice := { dose := .all, group := .grp 1, location := .loc 1 } },
   { source := { origin := "gov", data_date := 1, real_date := 1, period := "weekly" },
     vaccinated := 0,
     slice := { dose := .DOSE_1, group := .grp 1, location := .loc 1 } },
   { source := { origin := "gov", data_date := 8, real_date := 8, period := "weekly" },
     vaccinated := 5,
     slice := { dose := .DOSE_1, group := .grp 1, location := .loc 1 } }]

/-- The aggregate contained in `exC4`. -/
def exC4agg : Vaccinated :=
  { source := { origin := "gov", data_date := 4, real_date := 4, period := "daily" },
    vaccinated := 100,
    slice := { dose := .all, group := .grp 1, location := .loc 1 } }

/-- A dose aggregate whose single peer reconstructs it exactly. -/
def exC4bagg : Vaccinated :=
  { source := { origin := "gov", data_date := 4, real_date := 4, period := "daily" },
    vaccinated := 100,
    slice := { dose := .all, group := .grp 1, location := .loc 1 } }

/-- The aggregate together with its within-tolerance peer. -/
def exC4b : List Vaccinated :=
  [exC4bagg,
   { source := { origin := "gov", data_date := 4, real_date := 4, period := "daily" },
     vaccinated := 100,
     slice := { dose := .DOSE_1, group := .grp 1, location := .loc 1 } }]

/-- A dose-1 observation of 1000 on day 0 (spec section 8 dose-2 floor
fixture). -/
def exD1w : Vaccinated :=
  { source := { origin := "gov", data_date := 0, real_date := 0, period := "daily" },
    vaccinated := 1000,
    slice := { dose := .DOSE_1, group := .grp 1, location := .loc 1 } }

/-- A dose-2 observation of 800 exactly 84 days later. -/
def exD2w : Vaccinated :=
  { source := { origin := "gov", data_date := 84, real_date := 84, period := "daily" },
    vaccinated := 800,
    slice := { dose := .DOSE_2, group := .grp 1, location := .loc 1 } }

/-- A dose-2 observation of 1200 exactly 84 days later. -/
def exD2b : Vaccinated :=
  { source := { origin := "gov", data_date := 84, real_date := 84, period := "daily" },
    vaccinated := 1200,
    slice := { dose := .DOSE_2, group := .grp 1, location := .loc 1 } }

/-- Dose-2 floor fixture where the dose-2 count is below the floor. -/
def exC8 : List Vaccinated := [exD1w, exD2w]

/-- Dose-2 floor fixture where the dose-2 count exceeds the floor. -/
def exC8b : List Vaccinated := [exD1w, exD2b]

/-- A single dose-2 observation, input of the dose-2-plus-wait
witness. -/
def exC9 : List Vaccinated :=
  [{ source := { origin := "gov", data_date := 0, real_date := 0, period := "daily" },
     vaccinated := 10,
     slice := { dose := .DOSE_2, group := .grp 1, location := .loc 1 } }]

/-- The expected `add_dose_2_wait` output on `exC9`. -/
def exC9out : List Vaccinated :=
  [{ source := { origin := "gov", data_date := 0, real_date := 0, period := "daily" },
     vaccinated := 10,
     slice := { dose := .DOSE_2, group := .grp 1, location := .loc 1 } },
   { source := { origin := "gov", data_date := 0, real_date := 7, period := "daily" },
     vaccinated := 10,
     slice := { dose := .DOSE_2_PLUS_WAIT, group := .grp 1, location := .loc 1 },
     extrapolated := true }]

/-- The slice of the forecast fixture. -/
def exC5slice : Slice := { dose := .DOSE_1, group := .grp 1, location := .loc 1 }

/-- The forecast fixture of spec section 8: exactly two trailing points
`(day = -6, 100)` and `(day = 0, 130)` for one slice (dates 0 and 6,
so the global max date is 6). -/
def exC5 : List Vaccinated :=
  [{ source := { origin := "gov", data_date := 0, real_date := 0, period := "daily" },
     vaccinated := 100, slice := exC5slice },
   { source := { origin := "gov", data_date := 6, real_date := 6, period := "daily" },
     vaccinated := 130, slice := exC5slice }]

/-- The `add_extrapolations` output collection on `exC5`. -/
def exC5out : List Vaccinated :=
  exC5 ++ (slicesOf exC5).flatMap (extrapolationBlock exC5 6)

/-- The slice of the cumulative round-trip fixture. -/
def exC6slice : Slice := { dose := .DOSE_1, group := .grp 2, location := .loc 1 }

/-- A one-slice series with distinct, unsorted dates. -/
def exC6 : List Vaccinated :=
  [{ source := { origin := "gov", data_date := 5, real_date := 5, period := "daily" },
     vaccinated := 10, slice := exC6slice },
   { source := { origin := "gov", data_date := 1, real_date := 1, period := "daily" },
     vaccinated := 3, slice := exC6slice },
   { source := { origin := "gov", data_date := 3, real_date := 3, period := "daily" },
     vaccinated := 7, slice := exC6slice }]

/-- A collection whose every observation is extrapolated. -/
def exC10ext : List Vaccinated :=
  [{ source := { origin := "prediction", data_date := 30, real_date := 30, period := "daily" },
     vaccinated := 10,
     slice := { dose := .DOSE_2, group := .grp 1, location := .loc 1 },
     extrapolated := true }]

/-!  ## Helper lemmas -/

theorem insertKey_perm (key : α → ℤ) (x : α) (xs : List α) :
    (insertKey key x xs).Perm (x :: xs) := by
  induction xs with
  | nil => exact .refl _
  | cons y ys ih =>
    simp only [insertKey]
    split
    · exact (ih.cons y).trans (List.Perm.swap x y ys)
    · exact .refl _

theorem sortKey_perm (key : α → ℤ) (xs : List α) : (sortKey key xs).Perm xs := by
  induction xs with
  | nil => exact .refl _
  | cons x xs ih => exact (insertKey_perm key x (sortKey key xs)).trans (ih.cons x)

theorem pairwise_le_insertKey (key : α → ℤ) (x : α) {xs : List α}
    (h : xs.Pairwise (fun a b => key a ≤ key b)) :
    (insertKey key x xs).Pairwise (fun a b => key a ≤ key b) := by
  induction xs with
  | nil => simp [insertKey]
  | cons y ys ih =>
    rcases List.pairwise_cons.mp h with ⟨hy, hys⟩
    simp only [insertKey]
    split
    · refine List.pairwise_cons.mpr ⟨?_, ih hys⟩
      intro b hb
      rcases List.mem_cons.mp ((insertKey_perm key x ys).mem_iff.mp hb) with hb2 | hb2
      · subst hb2; exact le_of_lt (by assumption)
      · exact hy b hb2
    · refine List.pairwise_cons.mpr ⟨?_, List.pairwise_cons.mpr ⟨hy, hys⟩⟩
      intro b hb
      rcases List.mem_cons.mp hb with hb | hb
      · subst hb; exact le_of_not_lt (by assumption)
      · exact le_trans (le_of_not_lt (by assumption)) (hy b hb)

theorem sortKey_pairwise_le (key : α → ℤ) (xs : List α) :
    (sortKey key xs).Pairwise (fun a b => key a ≤ key b) := by
  induction xs with
  | nil => simp [sortKey]
  | cons x xs ih => exact pairwise_le_insertKey key x ih

theorem insertKey_of_forall_lt (key : α → ℤ) (x : α) {xs : List α}
    (h : ∀ y ∈ xs, key x < key y) : insertKey key x xs = x :: xs := by
  cases xs with
  | nil => rfl
  | cons y ys =>
    simp only [insertKey]
    rw [if_neg]
    exact fun hlt => absurd (h y (.head _)) (not_lt_of_lt hlt)

theorem sortKey_of_pairwise_lt (key : α → ℤ) {xs : List α}
    (h : xs.Pairwise (fun a b => key a < key b)) : sortKey key xs = xs := by
  induction xs with
  | nil => rfl
  | cons x xs ih =>
    rcases List.pairwise_cons.mp h with ⟨hx, hxs⟩
    simp only [sortKey]
    rw [ih hxs]
    exact insertKey_of_forall_lt key x hx

theorem flatMap_single [DecidableEq α] {xs : List α} (hnd : xs.Nodup)
    (f : α → List β) (s : α) (hz : ∀ x ∈ xs, x ≠ s → f x = []) :
    xs.flatMap f = if s ∈ xs then f s else [] := by
  induction xs with
  | nil => simp
  | cons x xs ih =>
    rcases List.nodup_cons.mp hnd with ⟨hx, hnd2⟩
    rw [List.flatMap_cons]
    by_cases hxs : x = s
    · subst hxs
      have hz2 : xs.flatMap f = [] := by
        refine List.flatMap_eq_nil_iff.mpr (fun y hy => ?_)
        exact hz y (.tail _ hy) (fun h => hx (h ▸ hy))
      simp [hz2]
    · rw [hz x (.head _) hxs, ih hnd2 (fun y hy hne => hz y (.tail _ hy) hne)]
      have hiff : (s ∈ x :: xs) ↔ (s ∈ xs) := by
        constructor
        · intro h
          rcases List.mem_cons.mp h with h2 | h2
          · exact absurd h2.symm hxs
          · exact h2
        · exact fun h => .tail _ h
      simp only [List.nil_append]
      rw [if_congr hiff rfl rfl]

theorem listMax_eq_none_iff (xs : List ℤ) : listMax xs = none ↔ xs = [] := by
  cases xs with
  | nil => simp [listMax]
  | cons x xs =>
    simp only [listMax]
    constructor
    · intro h
      cases hm : listMax xs <;> simp [hm] at h
    · intro h; exact absurd h (List.cons_ne_nil x xs)

theorem listMax_mem {xs : List ℤ} {m : ℤ} (h : listMax xs = some m) : m ∈ xs := by
  induction xs generalizing m with
  | nil => simp [listMax] at h
  | cons x xs ih =>
    simp only [listMax] at h
    cases hm : listMax xs with
    | none =>
      rw [hm] at h
      cases h
      exact .head _
    | some m2 =>
      rw [hm] at h
      cases h
      rcases max_choice x m2 with hc | hc
      · rw [hc]; exact .head _
      · rw [hc]; exact .tail _ (ih hm)

theorem listMax_le {xs : List ℤ} {m : ℤ} (h : listMax xs = some m) :
    ∀ x ∈ xs, x ≤ m := by
  induction xs generalizing m with
  | nil => simp
  | cons x xs ih =>
    intro y hy
    simp only [listMax] at h
    cases hm : listMax xs with
    | none =>
      rw [hm] at h
      cases h
      rcases List.mem_cons.mp hy with hb | hb
      · exact le_of_eq hb
      · exact absurd (listMax_eq_none_iff xs |>.mp hm) (List.ne_nil_of_mem hb)
    | some m2 =>
      rw [hm] at h
      cases h
      rcases List.mem_cons.mp hy with hb | hb
      · rw [hb]; exact le_max_left x m2
      · exact le_trans (ih hm y hb) (le_max_right x m2)

theorem exceptMap_error_iff (g : List Vaccinated → List Vaccinated)
    (x : Except String (List Vaccinated)) :
    (∃ e, Except.map g x = .error e) ↔ (∃ e, x = .error e) := by
  cases x <;> simp [Except.map]

theorem collectE_error_iff (f : α → Except String (List β)) (xs : List α) :
    (∃ e, collectE f xs = .error e) ↔ ∃ x ∈ xs, ∃ e, f x = .error e := by
  induction xs with
  | nil => simp [collectE]
  | cons x xs ih =>
    simp only [collectE]
    cases hfx : f x with
    | error e =>
      simp only [List.mem_cons]
      constructor
      · intro _; exact ⟨x, Or.inl rfl, e, hfx⟩
      · intro _; exact ⟨e, rfl⟩
    | ok ys =>
      cases hc : collectE f xs with
      | error e =>
        simp only [List.mem_cons]
        constructor
        · intro _
          rcases ih.mp ⟨e, hc⟩ with ⟨y, hy, he⟩
          exact ⟨y, Or.inr hy, he⟩
        · intro _; exact ⟨e, rfl⟩
      | ok zs =>
        simp only [List.mem_cons]
        constructor
        · rintro ⟨e, he⟩; simp at he
        · rintro ⟨y, hy | hy, e, he⟩
          · rw [hy, hfx] at he; simp at he
          · rcases ih.mpr ⟨y, hy, e, he⟩ with ⟨e2, he2⟩
            rw [he2] at hc; simp at hc

/-!  ## Claim theorems -/

/-- C7: `remove_aggregates` retains an observation iff its dose and
group are both non-wildcard, its location is wildcard, and it is not a
weekly observation dated on or after the cutover date 2021-01-09
(day 9); it is a pure filter, hence idempotent and emitting only input
observations unmodified. -/
theorem c7_remove_aggregates :
    (∀ v, keepObs v = true ↔
      (v.slice.dose.is_all = false ∧ v.slice.group.is_all = false ∧
        v.slice.location.is_all = true ∧
        ¬(v.source.period = "weekly" ∧ 9 ≤ v.source.real_date))) ∧
    (∀ l, remove_aggregates (remove_aggregates l) = remove_aggregates l) ∧
    (∀ l, (remove_aggregates l).Sublist l) := by
  refine ⟨fun v => ?_, fun l => ?_, fun l => List.filter_sublist l⟩
  · cases hg : v.slice.group.is_all <;> cases hd : v.slice.dose.is_all <;>
      cases hl : v.slice.location.is_all <;>
      by_cases hp : v.source.period = "weekly" <;>
      by_cases hr : (9:ℤ) ≤ v.source.real_date <;>
      simp [keepObs, FIRST_DAILY_DATA, hg, hd, hl, hp, hr]
  · unfold remove_aggregates
    rw [List.filter_filter]
    exact List.filter_congr (fun v _ => by rw [Bool.and_self])

/-- C10: `add_extrapolations` fails on the empty collection,
`add_dose_2_wait` fails exactly when every observation is extrapolated,
and both succeed on any input containing a non-extrapolated
observation. -/
theorem c10_totality :
    add_extrapolations ([] : List Vaccinated) =
      .error "ValueError: max() arg is an empty sequence" ∧
    (∀ l : List Vaccinated, (∀ v ∈ l, v.extrapolated = true) →
      add_dose_2_wait l = .error "ValueError: max() arg is an empty sequence") ∧
    (∀ l : List Vaccinated, (∃ v ∈ l, v.extrapolated = false) →
      (∃ out, add_extrapolations l = .ok out) ∧
      (∃ out, add_dose_2_wait l = .ok out)) := by
  refine ⟨rfl, fun l h => ?_, fun l h => ⟨?_, ?_⟩⟩
  · have hf : l.filter (fun v => !v.extrapolated) = [] := by
      rw [List.filter_eq_nil_iff]
      intro v hv
      simp [h v hv]
    unfold add_dose_2_wait maxNonExtrapolated
    rw [hf]
    rfl
  · rcases h with ⟨v, hv, _⟩
    have hne : l.map (fun v => v.source.real_date) ≠ [] := by
      intro h0
      exact absurd (List.map_eq_nil_iff.mp h0) (List.ne_nil_of_mem hv)
    unfold add_extrapolations
    cases hm : listMax (l.map fun v => v.source.real_date) with
    | none => exact absurd ((listMax_eq_none_iff _).mp hm) hne
    | some m => exact ⟨_, rfl⟩
  · rcases h with ⟨v, hv, hve⟩
    have hvf : v ∈ l.filter (fun v => !v.extrapolated) := by
      rw [List.mem_filter]
      exact ⟨hv, by simp [hve]⟩
    have hne : (l.filter (fun v => !v.extrapolated)).map
        (fun v => v.source.real_date) ≠ [] := by
      intro h0
      exact absurd (List.map_eq_nil_iff.mp h0) (List.ne_nil_of_mem hvf)
    unfold add_dose_2_wait maxNonExtrapolated
    cases hm : listMax ((l.filter (fun v => !v.extrapolated)).map
        fun v => v.source.real_date) with
    | none => exact absurd ((listMax_eq_none_iff _).mp hm) hne
    | some m => exact ⟨_, rfl⟩

/-- Witness for C10 at concrete inputs: a fully extrapolated
collection makes `add_dose_2_wait` fail, and a collection with a
non-extrapolated observation makes both functions succeed. -/
theorem c10_witness :
    (∀ v ∈ exC10ext, v.extrapolated = true) ∧
    add_dose_2_wait exC10ext = .error "ValueError: max() arg is an empty sequence" ∧
    (∃ v ∈ exC1, v.extrapolated = false) ∧
    (∃ out, add_extrapolations exC1 = .ok out) ∧
    (∃ out, add_dose_2_wait exC1 = .ok out) :=
  ⟨by with_unfolding_all decide,
   c10_totality.2.1 exC10ext (by with_unfolding_all decide),
   by with_unfolding_all decide,
   (c10_totality.2.2 exC1 (by with_unfolding_all decide)).1,
   (c10_totality.2.2 exC1 (by with_unfolding_all decide)).2⟩

/-- C9: `add_dose_2_wait` returns the input unchanged followed by one
synthetic observation per dose-2 observation, as the spec-worded
`specWait` describes: dose `DOSE_2_PLUS_WAIT`, date shifted 7 days,
identical count, extrapolated exactly when the shifted date exceeds
the maximum non-extrapolated date; and that maximum is attained by a
non-extrapolated input observation and bounds all of them. -/
theorem c9_dose_2_wait :
    (∀ (l : List Vaccinated) (maxD : ℤ) (out : List Vaccinated),
      maxNonExtrapolated l = some maxD →
      add_dose_2_wait l = .ok out →
      out = l ++ (l.filter (fun v => decide (v.slice.dose = Dose.DOSE_2))).map
        (specWait maxD)) ∧
    (∀ (maxD : ℤ) (v : Vaccinated),
      (specWait maxD v).slice.dose = Dose.DOSE_2_PLUS_WAIT ∧
      (specWait maxD v).source.real_date = v.source.real_date + 7 ∧
      (specWait maxD v).vaccinated = v.vaccinated ∧
      ((specWait maxD v).extrapolated = true ↔ maxD < v.source.real_date + 7)) ∧
    (∀ (l : List Vaccinated) (maxD : ℤ), maxNonExtrapolated l = some maxD →
      (∃ v ∈ l, v.extrapolated = false ∧ v.source.real_date = maxD) ∧
      (∀ v ∈ l, v.extrapolated = false → v.source.real_date ≤ maxD)) := by
  refine ⟨fun l maxD out hm hout => ?_, fun maxD v => ⟨rfl, rfl, rfl, ?_⟩,
    fun l maxD hm => ⟨?_, ?_⟩⟩
  · unfold add_dose_2_wait at hout
    rw [hm] at hout
    cases hout
    rfl
  · simp [specWait]
  · have hmem := listMax_mem hm
    rcases List.mem_map.mp hmem with ⟨v, hv, hdate⟩
    rcases List.mem_filter.mp hv with ⟨hvl, hvb⟩
    exact ⟨v, hvl, by simpa using hvb, hdate⟩
  · intro v hv hve
    refine listMax_le hm _ (List.mem_map.mpr ⟨v, ?_, rfl⟩)
    rw [List.mem_filter]
    exact ⟨hv, by simp [hve]⟩

/-- Witness for C9 at a concrete input: a dose-2 observation dated 0
produces a paired wait observation dated 7 with identical count,
flagged extrapolated since 7 exceeds the maximum non-extrapolated
date 0. -/
theorem c9_witness :
    maxNonExtrapolated exC9 = some 0 ∧
    add_dose_2_wait exC9 = .ok exC9out ∧
    exC9out = exC9 ++ (exC9.filter (fun v => decide (v.slice.dose = Dose.DOSE_2))).map
      (specWait 0) :=
  ⟨by with_unfolding_all decide,
   by with_unfolding_all decide,
   c9_dose_2_wait.1 exC9 0 exC9out (by with_unfolding_all decide)
     (by with_unfolding_all decide)⟩

/-- C8: `add_12w_dose_lag` maps each observation in place: a dose-2
observation with a dose-1 lookup hit 84 days earlier at the same
location and group becomes a copy with count
`max(dose2.count, dose1.count)` flagged extrapolated (also when the
dose-2 count already exceeds the floor); every other observation
passes through unchanged.  The lookup hits exactly when a dose-1
observation exists at the key. -/
theorem c8_dose_lag :
    (∀ l : List Vaccinated, add_12w_dose_lag l = l.map (doseLagAdjust l)) ∧
    (∀ (l : List Vaccinated) (k : ℤ × Location × Group),
      (dose1s_by_date_slice l k).isSome = true ↔ specDose1Exists l k) ∧
    (∀ (l : List Vaccinated) (v : Vaccinated), v.slice.dose ≠ Dose.DOSE_2 →
      doseLagAdjust l v = v) ∧
    (∀ (l : List Vaccinated) (v : Vaccinated), v.slice.dose = Dose.DOSE_2 →
      dose1s_by_date_slice l
        (v.source.real_date - 84, v.slice.location, v.slice.group) = none →
      doseLagAdjust l v = v) ∧
    (∀ (l : List Vaccinated) (v : Vaccinated) (c : ℚ), v.slice.dose = Dose.DOSE_2 →
      dose1s_by_date_slice l
        (v.source.real_date - 84, v.slice.location, v.slice.group) = some c →
      doseLagAdjust l v =
        { v with vaccinated := max v.vaccinated c, extrapolated := true }) := by
  refine ⟨fun l => rfl, fun l k => ?_, fun l v h => ?_, fun l v h hlk => ?_,
    fun l v c h hlk => ?_⟩
  · unfold dose1s_by_date_slice specDose1Exists
    rw [List.getLast?_isSome, Ne, List.map_eq_nil_iff]
    constructor
    · intro hne
      rcases List.exists_mem_of_ne_nil _ hne with ⟨w, hmem⟩
      rcases List.mem_filter.mp hmem with ⟨hwl, hwb⟩
      simp only [Bool.and_eq_true, decide_eq_true_eq] at hwb
      exact ⟨w, hwl, hwb.1, hwb.2⟩
    · rintro ⟨w, hwl, hw1, hwk⟩ hnil
      have hmem : w ∈ l.filter (fun v =>
          decide (v.slice.dose = Dose.DOSE_1) &&
          decide ((v.source.real_date, v.slice.location, v.slice.group) = k)) := by
        rw [List.mem_filter]
        refine ⟨hwl, ?_⟩
        simp [hw1, hwk]
      rw [hnil] at hmem
      cases hmem
  · unfold doseLagAdjust
    rw [if_pos h]
  · unfold doseLagAdjust
    rw [if_neg (not_not_intro h), hlk]
  · unfold doseLagAdjust
    rw [if_neg (not_not_intro h), hlk]

set_option maxRecDepth 10000 in
/-- Witness for C8 at the spec fixtures: dose-2 of 800 at day 84 with
dose-1 of 1000 at day 0 becomes 1000 flagged extrapolated; dose-2 of
1200 stays 1200, still flagged. -/
theorem c8_witness :
    dose1s_by_date_slice exC8
      (exD2w.source.real_date - 84, exD2w.slice.location, exD2w.slice.group) =
      some 1000 ∧
    doseLagAdjust exC8 exD2w =
      { exD2w with vaccinated := max exD2w.vaccinated 1000, extrapolated := true } ∧
    add_12w_dose_lag exC8 =
      [exD1w, { exD2w with vaccinated := 1000, extrapolated := true }] ∧
    add_12w_dose_lag exC8b =
      [exD1w, { exD2b with vaccinated := 1200, extrapolated := true }] :=
  ⟨by with_unfolding_all decide,
   c8_dose_lag.2.2.2.2 exC8 exD2w 1000 (by with_unfolding_all decide)
     (by with_unfolding_all decide),
   by with_unfolding_all decide,
   by with_unfolding_all decide⟩

set_option maxRecDepth 4000 in
/-- Counterexample to C3 as stated: two weekly samples on a single
distinct date pass the sample-count guard (2 samples, 1 distinct
date), and `deaggregate_with_interpolation` raises `IndexError`
instead of skipping. -/
theorem c3_counterexample :
    (weeklyMatching exC3agg Dim.dose exC3).length = 2 ∧
    (((weeklyMatching exC3agg Dim.dose exC3).map
      (fun v => v.source.real_date)).dedup).length = 1 ∧
    deaggregate_with_interpolation exC3agg Dim.dose exC3 = .error "IndexError" := by
  refine ⟨?_, ?_, ?_⟩ <;> with_unfolding_all decide

/-- C3 amended: the skip guard counts weekly sample observations, not
distinct dates — fewer than 2 matching weekly observations emit a
diagnostic and produce nothing (`.ok []`), without raising; at least 2
observations falling on a single distinct date instead raise. -/
theorem c3_skip_amended :
    (∀ (a : Vaccinated) (dim : Dim) (l : List Vaccinated),
      (weeklyMatching a dim l).length < 2 →
      deaggregate_with_interpolation a dim l = .ok []) ∧
    (∀ (a : Vaccinated) (dim : Dim) (l : List Vaccinated),
      2 ≤ (weeklyMatching a dim l).length →
      (((weeklyMatching a dim l).map (fun v => v.source.real_date)).dedup).length = 1 →
      ∃ e, deaggregate_with_interpolation a dim l = .error e) := by
  constructor
  · intro a dim l h
    unfold deaggregate_with_interpolation
    simp only [if_pos h]
  · intro a dim l h2 h1
    have hperm := (sortKey_perm (fun d => ((d - a.source.real_date).natAbs : ℤ))
      ((weeklyMatching a dim l).map (fun v => v.source.real_date))).dedup
    have hdlen : ((sortKey (fun d => ((d - a.source.real_date).natAbs : ℤ))
        ((weeklyMatching a dim l).map (fun v => v.source.real_date))).dedup).length = 1 := by
      rw [hperm.length_eq, h1]
    rcases List.length_eq_one.mp hdlen with ⟨d, hd⟩
    have hid : interpDates a dim l = [d] := by
      unfold interpDates
      rw [hd]
      rfl
    unfold deaggregate_with_interpolation
    rw [if_neg (not_lt.mpr h2), hid]
    show ∃ e,
      (if sumOn (dimDateVaccinated a dim l [d]) d = 0 then
        (Except.error "ZeroDivisionError" : Except String (List Vaccinated))
      else Except.error "IndexError") = Except.error e
    by_cases hz : sumOn (dimDateVaccinated a dim l [d]) d = 0
    · rw [if_pos hz]
      exact ⟨_, rfl⟩
    · rw [if_neg hz]
      exact ⟨_, rfl⟩

set_option maxRecDepth 4000 in
/-- Witness for the amended C3: one weekly sample is skipped without
raising; two same-date samples raise. -/
theorem c3_witness :
    (weeklyMatching exC3agg Dim.dose exC3b).length < 2 ∧
    deaggregate_with_interpolation exC3agg Dim.dose exC3b = .ok [] ∧
    (∃ e, deaggregate_with_interpolation exC3agg Dim.dose exC3 = .error e) :=
  ⟨by with_unfolding_all decide,
   c3_skip_amended.1 exC3agg Dim.dose exC3b (by with_unfolding_all decide),
   c3_skip_amended.2 exC3agg Dim.dose exC3 (by with_unfolding_all decide)
     (by with_unfolding_all decide)⟩

set_option maxRecDepth 10000 in
/-- Counterexample to C2 as stated: for dimension `group`, an
observation that the spec wording makes a peer of the aggregate (same
date, non-wildcard on group, agreeing non-wildcard dose and location)
is not in the peer set computed by the code, and `add_deaggregates`
emits interpolated observations for that aggregate although the
spec-worded peer set is non-empty. -/
theorem c2_counterexample :
    claimPeers exC2agg Dim.group (onDate exC2 4) = [exC2peer] ∧
    unaggregates exC2agg Dim.group (onDate exC2 4) = [] ∧
    add_deaggregates exC2 = .ok (exC2 ++ exC2out) := by
  refine ⟨?_, ?_, ?_⟩ <;> with_unfolding_all decide

/-- C2 amended: the code further restricts the spec-worded peer set to
observations whose `group` and `location` equal those of the
aggregate verbatim; for dimension `dose` this coincides with the
spec-worded set, while for dimensions `group` and `location` the peer
set of a wildcard aggregate is therefore always empty and ratio
interpolation is always attempted; a non-empty peer set yields only
the consistency check (no emission), an empty one defers to
interpolation. -/
theorem c2_peers_amended :
    (∀ (a : Vaccinated) (dim : Dim) (vod : List Vaccinated),
      unaggregates a dim vod = (claimPeers a dim vod).filter (fun v =>
        decide (v.slice.group = a.slice.group) &&
        decide (v.slice.location = a.slice.location))) ∧
    (∀ (a : Vaccinated) (vod : List Vaccinated),
      unaggregates a Dim.dose vod = claimPeers a Dim.dose vod) ∧
    (∀ (a : Vaccinated) (vod : List Vaccinated), a.slice.group.is_all = true →
      unaggregates a Dim.group vod = []) ∧
    (∀ (a : Vaccinated) (vod : List Vaccinated), a.slice.location.is_all = true →
      unaggregates a Dim.location vod = []) ∧
    (∀ (l : List Vaccinated) (r : ℤ) (dim : Dim) (a : Vaccinated),
      unaggregates a dim (onDate l r) = [] →
      perAggregate l r dim a = deaggregate_with_interpolation a dim l) ∧
    (∀ (l : List Vaccinated) (r : ℤ) (dim : Dim) (a : Vaccinated),
      unaggregates a dim (onDate l r) ≠ [] →
      perAggregate l r dim a = .ok [] ∨ ∃ e, perAggregate l r dim a = .error e) := by
  refine ⟨fun a dim vod => ?_, fun a vod => ?_, fun a vod hall => ?_,
    fun a vod hall => ?_, fun l r dim a h => ?_, fun l r dim a h => ?_⟩
  · unfold unaggregates claimPeers
    rw [List.filter_filter]
    apply List.filter_congr
    intro v _
    cases hA : (!(v.slice.get dim).is_all) <;>
      cases hB : ((otherDims dim).all (fun od =>
        decide (v.slice.get od = a.slice.get od) && !(v.slice.get od).is_all)) <;>
      cases hC : (decide (v.slice.group = a.slice.group)) <;>
      cases hD : (decide (v.slice.location = a.slice.location)) <;>
      simp [hA, hB, hC, hD]
  · unfold unaggregates claimPeers
    apply List.filter_congr
    intro v _
    by_cases hg : v.slice.group = a.slice.group <;>
      by_cases hc : v.slice.location = a.slice.location <;>
      simp [otherDims, SLICE_DIMS, Slice.get, hg, hc]
  · have ha : a.slice.group = Group.all := by
      cases h : a.slice.group with
      | all => rfl
      | grp n => rw [h] at hall; simp [Group.is_all] at hall
    unfold unaggregates
    rw [List.filter_eq_nil_iff]
    intro v _ hpred
    simp only [Bool.and_eq_true, Bool.not_eq_true', decide_eq_true_eq] at hpred
    obtain ⟨⟨⟨hna, -⟩, hgeq⟩, -⟩ := hpred
    rw [ha] at hgeq
    simp only [Slice.get, hgeq, DimV.is_all, Group.is_all] at hna
    exact Bool.noConfusion hna
  · have ha : a.slice.location = Location.all := by
      cases h : a.slice.location with
      | all => rfl
      | loc n => rw [h] at hall; simp [Location.is_all] at hall
    unfold unaggregates
    rw [List.filter_eq_nil_iff]
    intro v _ hpred
    simp only [Bool.and_eq_true, Bool.not_eq_true', decide_eq_true_eq] at hpred
    obtain ⟨⟨⟨hna, -⟩, -⟩, hceq⟩ := hpred
    rw [ha] at hceq
    simp only [Slice.get, hceq, DimV.is_all, Location.is_all] at hna
    exact Bool.noConfusion hna
  · unfold perAggregate
    rw [h]
    simp
  · unfold perAggregate
    rw [if_neg (fun h0 => h (List.length_eq_zero.mp h0))]
    split_ifs with h1 h2 h3
    · exact Or.inl rfl
    · exact Or.inr ⟨_, rfl⟩
    · exact Or.inl rfl
    · exact Or.inr ⟨_, rfl⟩

set_option maxRecDepth 10000 in
/-- Witness for the amended C2: the wildcard-on-group aggregate has no
code peers and defers to interpolation, and for dimension `dose` the
code peer set agrees with the spec wording. -/
theorem c2_witness :
    unaggregates exC2agg Dim.group (onDate exC2 4) = [] ∧
    perAggregate exC2 4 Dim.group exC2agg =
      deaggregate_with_interpolation exC2agg Dim.group exC2 ∧
    unaggregates exC2peer Dim.dose (onDate exC2 4) =
      claimPeers exC2peer Dim.dose (onDate exC2 4) :=
  ⟨c2_peers_amended.2.2.1 exC2agg (onDate exC2 4) (by with_unfolding_all decide),
   c2_peers_amended.2.2.2.2.1 exC2 4 Dim.group exC2agg
     (by with_unfolding_all decide),
   c2_peers_amended.2.1 exC2peer (onDate exC2 4)⟩

theorem perAggregate_error_iff (l : List Vaccinated) (r : ℤ) (dim : Dim)
    (a : Vaccinated) :
    (∃ e, perAggregate l r dim a = .error e) ↔ aggFailure l r dim a := by
  unfold perAggregate aggFailure
  by_cases h0 : (unaggregates a dim (onDate l r)).length = 0
  · have hnil : unaggregates a dim (onDate l r) = [] := List.length_eq_zero.mp h0
    rw [if_pos h0]
    constructor
    · intro he
      exact Or.inr ⟨hnil, he⟩
    · rintro (⟨hne, -⟩ | ⟨-, he⟩)
      · exact absurd hnil hne
      · exact he
  · have hne : unaggregates a dim (onDate l r) ≠ [] :=
      fun h => h0 (by rw [h]; rfl)
    simp only [if_neg h0]
    split_ifs with h1 h2 h3
    · constructor
      · rintro ⟨e, he⟩
        simp at he
      · rintro (⟨-, hge, -⟩ | ⟨hnil, -⟩)
        · exact absurd h1 (not_lt.mpr hge)
        · exact absurd hnil hne
    · constructor
      · intro _
        exact Or.inl ⟨hne, not_lt.mp h1, Or.inl h2⟩
      · intro _
        exact ⟨_, rfl⟩
    · constructor
      · rintro ⟨e, he⟩
        simp at he
      · rintro (⟨-, -, hz | hge⟩ | ⟨hnil, -⟩)
        · exact absurd hz h2
        · exact absurd h3 (not_lt.mpr hge)
        · exact absurd hnil hne
    · constructor
      · intro _
        exact Or.inl ⟨hne, not_lt.mp h1, Or.inr (not_lt.mp h3)⟩
      · intro _
        exact ⟨_, rfl⟩

set_option maxRecDepth 10000 in
/-- Counterexample to C4 as stated: `add_deaggregates` raises
(`ZeroDivisionError` inside ratio interpolation) on an input whose
only aggregate has an empty peer set — under the code computation and
the spec wording alike — so no aggregate violates the peer-sum
tolerance, yet an unrecoverable error occurs. -/
theorem c4_counterexample :
    add_deaggregates exC4 = .error "ZeroDivisionError" ∧
    dailyDates exC4 = [4] ∧
    aggregatesOn exC4 4 Dim.dose = [exC4agg] ∧
    aggregatesOn exC4 4 Dim.group = [] ∧
    aggregatesOn exC4 4 Dim.location = [] ∧
    unaggregates exC4agg Dim.dose (onDate exC4 4) = [] ∧
    claimPeers exC4agg Dim.dose (onDate exC4 4) = [] := by
  refine ⟨?_, ?_, ?_, ?_, ?_, ?_, ?_⟩ <;> with_unfolding_all decide

/-- C4 amended: `add_deaggregates` raises exactly when some aggregate
fails — either its peer set is non-empty with difference at least 1000
and (zero peer sum, a `ZeroDivisionError`, or ratio at least 0.05, an
`AssertionError`), or its peer set is empty and the ratio
interpolation itself raises; a non-empty peer set within either
tolerance yields no error and no emission for that aggregate. -/
theorem c4_error_amended :
    (∀ l : List Vaccinated,
      (∃ e, add_deaggregates l = .error e) ↔
        ∃ dim ∈ SLICE_DIMS, ∃ r ∈ dailyDates l, ∃ a ∈ aggregatesOn l r dim,
          aggFailure l r dim a) ∧
    (∀ (l : List Vaccinated) (r : ℤ) (dim : Dim) (a : Vaccinated),
      unaggregates a dim (onDate l r) ≠ [] →
      (peerDiff l r dim a < 1000 ∨
        (peerSum l r dim a ≠ 0 ∧ peerDiff l r dim a / peerSum l r dim a < 1/20)) →
      perAggregate l r dim a = .ok []) := by
  constructor
  · intro l
    unfold add_deaggregates
    simp only [exceptMap_error_iff, collectE_error_iff, perAggregate_error_iff]
  · intro l r dim a hne htol
    unfold perAggregate
    rw [if_neg (fun h0 => hne (List.length_eq_zero.mp h0))]
    split_ifs with h1 h2 h3
    · rfl
    · rcases htol with h | ⟨hz, -⟩
      · exact absurd h h1
      · exact absurd h2 hz
    · rfl
    · rcases htol with h | ⟨-, h⟩
      · exact absurd h h1
      · exact absurd h h3

theorem filter_mem_filter_eq (xs : List Vaccinated) (ds : List ℤ) (t : ℤ)
    (ht : t ∈ ds) (p : Vaccinated → Bool) :
    (xs.filter (fun v => decide (v.source.real_date ∈ ds))).filter
      (fun v => decide (v.source.real_date = t) && p v) =
    xs.filter (fun v => decide (v.source.real_date = t) && p v) := by
  rw [List.filter_filter]
  apply List.filter_congr
  intro v _
  by_cases hv : v.source.real_date = t
  · simp [hv, ht]
  · simp [hv]

theorem sumOnVal_dimDate (a : Vaccinated) (dim : Dim) (l : List Vaccinated)
    (ds : List ℤ) (t : ℤ) (dv : DimV) (ht : t ∈ ds) :
    sumOnVal (dimDateVaccinated a dim l ds) t dv =
    (((weeklyMatching a dim l).filter (fun v =>
        decide (v.source.real_date = t) &&
        decide (v.slice.get dim = dv))).map (fun v => v.vaccinated)).sum := by
  unfold sumOnVal dimDateVaccinated
  rw [List.filter_map, List.map_map]
  have hcomp :
      ((fun p : DimV × ℤ × ℚ => decide (p.2.1 = t) && decide (p.1 = dv)) ∘
        (fun v : Vaccinated => (v.slice.get dim, v.source.real_date, v.vaccinated))) =
      (fun v : Vaccinated =>
        decide (v.source.real_date = t) && decide (v.slice.get dim = dv)) := rfl
  rw [hcomp]
  rw [filter_mem_filter_eq _ ds t ht (fun v => decide (v.slice.get dim = dv))]
  rfl

theorem sumOn_dimDate (a : Vaccinated) (dim : Dim) (l : List Vaccinated)
    (ds : List ℤ) (t : ℤ) (ht : t ∈ ds) :
    sumOn (dimDateVaccinated a dim l ds) t =
    (((weeklyMatching a dim l).filter (fun v =>
        decide (v.source.real_date = t))).map (fun v => v.vaccinated)).sum := by
  unfold sumOn dimDateVaccinated
  rw [List.filter_map, List.map_map]
  have hcomp :
      ((fun p : DimV × ℤ × ℚ => decide (p.2.1 = t)) ∘
        (fun v : Vaccinated => (v.slice.get dim, v.source.real_date, v.vaccinated))) =
      (fun v : Vaccinated => decide (v.source.real_date = t)) := rfl
  rw [hcomp]
  have := filter_mem_filter_eq (weeklyMatching a dim l) ds t ht (fun _ => true)
  simp only [Bool.and_true] at this
  rw [this]
  rfl

theorem deagg_eq_of_dates (a : Vaccinated) (dim : Dim) (l : List Vaccinated)
    (d0 d1 : ℤ) (h2 : ¬ (weeklyMatching a dim l).length < 2)
    (hid : interpDates a dim l = [d0, d1]) :
    deaggregate_with_interpolation a dim l =
      (if sumOn (dimDateVaccinated a dim l [d0, d1]) d0 = 0 then
        .error "ZeroDivisionError"
      else if sumOn (dimDateVaccinated a dim l [d0, d1]) d1 = 0 then
        .error "ZeroDivisionError"
      else
        .ok (((weeklyMatching a dim l).map (fun v => v.slice.get dim)).dedup.map
          (interpEmit a dim (dimDateVaccinated a dim l [d0, d1]) d0 d1))) := by
  unfold deaggregate_with_interpolation
  rw [if_neg h2, hid]

/-- C1: whenever `deaggregate_with_interpolation` succeeds after
choosing two dates, every emitted observation is exactly the
spec-worded emission: same source as the aggregate, count
`int(aggregate.count * ratio)` with
`ratio = ratio0 + (ratio1 - ratio0)/(date1 - date0) * (data_date - date0)`
(the ratios being the weekly per-value shares on the two chosen
dates), the slice of the aggregate with dimension `d` set to the
value, flagged interpolated — one observation per distinct dimension
value in the weekly window, in order. -/
theorem c1_interpolated_emission (a : Vaccinated) (dim : Dim)
    (l : List Vaccinated) (d0 d1 : ℤ) (out : List Vaccinated)
    (hid : interpDates a dim l = [d0, d1])
    (hok : deaggregate_with_interpolation a dim l = .ok out) :
    out = ((weeklyMatching a dim l).map (fun v => v.slice.get dim)).dedup.map
      (specEmit a dim l d0 d1) := by
  have h2 : ¬ (weeklyMatching a dim l).length < 2 := by
    intro hlt
    have hlen : (interpDates a dim l).length ≤ 1 := by
      unfold interpDates
      rw [(sortKey_perm _ _).length_eq, List.length_take]
      have hd := List.Sublist.length_le (List.dedup_sublist
        (sortKey (fun d => ((d - a.source.real_date).natAbs : ℤ))
          ((weeklyMatching a dim l).map (fun v => v.source.real_date))))
      rw [(sortKey_perm _ _).length_eq, List.length_map] at hd
      omega
    rw [hid] at hlen
    simp at hlen
  rw [deagg_eq_of_dates a dim l d0 d1 h2 hid] at hok
  by_cases hz0 : sumOn (dimDateVaccinated a dim l [d0, d1]) d0 = 0
  · rw [if_pos hz0] at hok
    exact absurd hok (by simp)
  rw [if_neg hz0] at hok
  by_cases hz1 : sumOn (dimDateVaccinated a dim l [d0, d1]) d1 = 0
  · rw [if_pos hz1] at hok
    exact absurd hok (by simp)
  rw [if_neg hz1] at hok
  rw [Except.ok.injEq] at hok
  rw [← hok]
  apply List.map_congr_left
  intro dv _
  unfold interpEmit specEmit specRatio specRatioAt
  rw [sumOn_dimDate a dim l [d0, d1] d0 (by simp),
      sumOn_dimDate a dim l [d0, d1] d1 (by simp),
      sumOnVal_dimDate a dim l [d0, d1] d0 dv (by simp),
      sumOnVal_dimDate a dim l [d0, d1] d1 dv (by simp)]

set_option maxRecDepth 10000 in
/-- Witness for C1 at the spec interpolation fixture: weekly samples
A=60, B=40 on day 1 and A=45, B=55 on day 8, aggregate of 100 dated
day 4, emit 53 for value A (dose 1) and 46 for value B (dose 2). -/
theorem c1_witness :
    interpDates exC1agg Dim.dose exC1 = [1, 8] ∧
    deaggregate_with_interpolation exC1agg Dim.dose exC1 = .ok exC1out ∧
    exC1out = ((weeklyMatching exC1agg Dim.dose exC1).map
      (fun v => v.slice.get Dim.dose)).dedup.map (specEmit exC1agg Dim.dose exC1 1 8) ∧
    exC1out.map (fun v => v.vaccinated) = [53, 46] :=
  ⟨by with_unfolding_all decide, by with_unfolding_all decide,
   c1_interpolated_emission exC1agg Dim.dose exC1 1 8 exC1out
     (by with_unfolding_all decide) (by with_unfolding_all decide),
   by with_unfolding_all decide⟩

theorem sum_shift (f g : (ℤ × ℚ) → ℚ) (pts : List (ℤ × ℚ)) (xb yb : ℚ) :
    (pts.map (fun p => (f p - xb) * (g p - yb))).sum =
    (pts.map (fun p => f p * g p)).sum - xb * (pts.map g).sum -
      yb * (pts.map f).sum + (pts.length : ℚ) * (xb * yb) := by
  induction pts with
  | nil => simp
  | cons p ps ih =>
    simp only [List.map_cons, List.sum_cons, ih, List.length_cons]
    push_cast
    ring

theorem slope_norm (n sx sy sxx sxy : ℚ) (hn : n ≠ 0) :
    (sxy - sx / n * sy - sy / n * sx + n * (sx / n * (sy / n))) /
      (sxx - sx / n * sx - sx / n * sx + n * (sx / n * (sx / n))) =
    (n * sxy - sx * sy) / (n * sxx - sx * sx) := by
  have e1 : sxy - sx / n * sy - sy / n * sx + n * (sx / n * (sy / n)) =
      (n * sxy - sx * sy) / n := by
    field_simp
    ring
  have e2 : sxx - sx / n * sx - sx / n * sx + n * (sx / n * (sx / n)) =
      (n * sxx - sx * sx) / n := by
    field_simp
    ring
  by_cases hd : n * sxx - sx * sx = 0
  · rw [e1, e2, hd, zero_div, div_zero, div_zero]
  · rw [e1, e2]
    rw [div_div_div_eq]
    rw [mul_comm (n * sxy - sx * sy) n, mul_div_mul_left _ _ hn]

theorem fitSlope_eq_specSlope (pts : List (ℤ × ℚ)) :
    fitSlope pts = specSlope pts := by
  by_cases hnil : pts = []
  · subst hnil
    simp [fitSlope, specSlope]
  · have hn : (pts.length : ℚ) ≠ 0 := by
      rw [Nat.cast_ne_zero]
      exact fun h => hnil (List.length_eq_zero.mp h)
    unfold fitSlope specSlope
    rw [sum_shift (fun p => (p.1 : ℚ)) (fun p => p.2) pts
          ((pts.map (fun q => (q.1 : ℚ))).sum / (pts.length : ℚ))
          ((pts.map (fun q => q.2)).sum / (pts.length : ℚ)),
        sum_shift (fun p => (p.1 : ℚ)) (fun p => (p.1 : ℚ)) pts
          ((pts.map (fun q => (q.1 : ℚ))).sum / (pts.length : ℚ))
          ((pts.map (fun q => (q.1 : ℚ))).sum / (pts.length : ℚ))]
    exact (slope_norm _ _ _ _ _ hn).symm

theorem fitIntercept_eq_specInterceptOf (pts : List (ℤ × ℚ)) :
    fitIntercept pts = specInterceptOf pts := by
  unfold fitIntercept specInterceptOf
  rw [fitSlope_eq_specSlope, sub_div, mul_div_assoc]

theorem add_extrapolations_ok (l : List Vaccinated) (maxD : ℤ)
    (hm : listMax (l.map (fun v => v.source.real_date)) = some maxD) :
    add_extrapolations l =
      .ok (l ++ (slicesOf l).flatMap (extrapolationBlock l maxD)) := by
  unfold add_extrapolations
  rw [hm]

theorem extrapolationBlock_filter (l : List Vaccinated) (maxD : ℤ)
    (s s2 : Slice) :
    (extrapolationBlock l maxD s2).filter (fun v =>
      decide (v.source.origin = "prediction") && decide (v.slice = s)) =
    if s2 = s then extrapolationBlock l maxD s2 else [] := by
  by_cases hs : s2 = s
  · subst hs
    rw [if_pos rfl]
    apply List.filter_eq_self.mpr
    intro v hv
    unfold extrapolationBlock at hv
    split_ifs at hv
    · simp at hv
    · rcases List.mem_map.mp hv with ⟨k, -, hk⟩
      rw [← hk]
      simp [predictionsFor]
  · rw [if_neg hs]
    apply List.filter_eq_nil_iff.mpr
    intro v hv
    unfold extrapolationBlock at hv
    split_ifs at hv
    · simp at hv
    · rcases List.mem_map.mp hv with ⟨k, -, hk⟩
      rw [← hk]
      simp [predictionsFor, hs]

/-- C5: `add_extrapolations` never fails on a collection with a maximum
date; the prediction observations it appends for a slice `s` are
exactly the 51 spec-worded forecasts (weeks 1 through 51, source
origin `prediction`, period `daily`, `data_date = real_date =
max_date + 7k`, value `m*7k + b` from the least-squares line through
the trailing-window points, flagged extrapolated) when the window has
at least 2 points, and nothing when it has fewer. -/
theorem c5_forecaster :
    (∀ (l : List Vaccinated) (maxD : ℤ),
      listMax (l.map (fun v => v.source.real_date)) = some maxD →
      add_extrapolations l =
        .ok (l ++ (slicesOf l).flatMap (extrapolationBlock l maxD))) ∧
    (∀ (l : List Vaccinated) (maxD : ℤ) (out : List Vaccinated) (s : Slice),
      (∀ v ∈ l, v.source.origin ≠ "prediction") →
      listMax (l.map (fun v => v.source.real_date)) = some maxD →
      add_extrapolations l = .ok out →
      out.filter (fun v =>
          decide (v.source.origin = "prediction") && decide (v.slice = s)) =
        (if 2 ≤ (windowPoints l maxD s).length then
          (List.range' 1 51).map (specPredict maxD s
            (specSlope (windowPoints l maxD s))
            (specInterceptOf (windowPoints l maxD s)))
        else [])) := by
  refine ⟨add_extrapolations_ok, fun l maxD out s hnp hm hok => ?_⟩
  rw [add_extrapolations_ok l maxD hm, Except.ok.injEq] at hok
  rw [← hok, List.filter_append]
  have hl : l.filter (fun v =>
      decide (v.source.origin = "prediction") && decide (v.slice = s)) = [] := by
    apply List.filter_eq_nil_iff.mpr
    intro v hv
    simp [hnp v hv]
  rw [hl, List.nil_append, List.filter_flatMap]
  have hnodup : (slicesOf l).Nodup := by
    unfold slicesOf
    exact List.nodup_dedup _
  rw [flatMap_single hnodup _ s
    (fun s2 _ hne => by rw [extrapolationBlock_filter, if_neg hne])]
  rw [extrapolationBlock_filter l maxD s s, if_pos rfl]
  by_cases hw : 2 ≤ (windowPoints l maxD s).length
  · rw [if_pos hw]
    have hsl : s ∈ slicesOf l := by
      have hne : windowPoints l maxD s ≠ [] := by
        intro h0
        rw [h0] at hw
        simp at hw
      rcases List.exists_mem_of_ne_nil _ hne with ⟨p, hp⟩
      unfold windowPoints at hp
      rcases List.mem_map.mp hp with ⟨v, hv, -⟩
      rcases List.mem_filter.mp hv with ⟨hvl, hvb⟩
      simp only [Bool.and_eq_true, decide_eq_true_eq] at hvb
      unfold slicesOf
      rw [List.mem_dedup]
      exact List.mem_map.mpr ⟨v, hvl, hvb.1⟩
    rw [if_pos hsl]
    unfold extrapolationBlock
    rw [if_neg (by omega)]
    unfold predictionsFor
    rw [fitSlope_eq_specSlope, fitIntercept_eq_specInterceptOf]
    apply List.map_congr_left
    intro k _
    unfold specPredict
    have : specSlope (windowPoints l maxD s) * ((k : ℚ) * 7) =
        specSlope (windowPoints l maxD s) * (7 * (k : ℚ)) := by ring
    rw [this]
  · rw [if_neg hw]
    by_cases hsl : s ∈ slicesOf l
    · rw [if_pos hsl]
      unfold extrapolationBlock
      rw [if_pos (by omega)]
    · rw [if_neg hsl]

set_option maxRecDepth 40000 in
/-- Witness for C5 at the spec forecast fixture: two trailing points
`(-6, 100)` and `(0, 130)` yield exactly 51 predictions whose week-1
value is 165. -/
theorem c5_witness :
    add_extrapolations exC5 = .ok exC5out ∧
    exC5out.filter (fun v =>
        decide (v.source.origin = "prediction") && decide (v.slice = exC5slice)) =
      (if 2 ≤ (windowPoints exC5 6 exC5slice).length then
        (List.range' 1 51).map (specPredict 6 exC5slice
          (specSlope (windowPoints exC5 6 exC5slice))
          (specInterceptOf (windowPoints exC5 6 exC5slice)))
      else []) ∧
    2 ≤ (windowPoints exC5 6 exC5slice).length ∧
    (exC5out.filter (fun v =>
        decide (v.source.origin = "prediction") &&
        decide (v.slice = exC5slice))).length = 51 ∧
    ((exC5out.filter (fun v =>
        decide (v.source.origin = "prediction") &&
        decide (v.slice = exC5slice))).head?).map (fun v => v.vaccinated) =
      some 165 :=
  ⟨by with_unfolding_all decide,
   c5_forecaster.2 exC5 6 exC5out exC5slice (by with_unfolding_all decide)
     (by with_unfolding_all decide) (by with_unfolding_all decide),
   by with_unfolding_all decide,
   by with_unfolding_all decide,
   by with_unfolding_all decide⟩

theorem firstDiffs_map_slice (prev : Vaccinated) (rest : List Vaccinated) :
    (firstDiffs prev rest).map (fun v => v.slice) = rest.map (fun v => v.slice) := by
  induction rest generalizing prev with
  | nil => rfl
  | cons v2 rest ih => simp [firstDiffs, ih]

theorem firstDiffs_map_date (prev : Vaccinated) (rest : List Vaccinated) :
    (firstDiffs prev rest).map (fun v => v.source.real_date) =
      rest.map (fun v => v.source.real_date) := by
  induction rest generalizing prev with
  | nil => rfl
  | cons v2 rest ih => simp [firstDiffs, ih]

theorem cumsFrom_map_slice (acc : ℚ) (rest : List Vaccinated) :
    (cumsFrom acc rest).map (fun v => v.slice) = rest.map (fun v => v.slice) := by
  induction rest generalizing acc with
  | nil => rfl
  | cons v2 rest ih => simp [cumsFrom, ih]

theorem sortByDate_slice {l2 : List Vaccinated} {s : Slice}
    (hall : ∀ v ∈ l2, v.slice = s) :
    ∀ v ∈ sortByDate l2, v.slice = s := by
  intro v hv
  exact hall v ((sortKey_perm _ _).mem_iff.mp hv)

theorem groupOf_slice (l2 : List Vaccinated) (s : Slice) :
    ∀ v ∈ groupOf l2 s, v.slice = s := by
  intro v hv
  exact of_decide_eq_true (List.mem_filter.mp hv).2

theorem ncBlock_slice (l2 : List Vaccinated) (s : Slice) :
    ∀ v ∈ ncBlock l2 s, v.slice = s := by
  intro v hv
  unfold ncBlock at hv
  have hall := sortByDate_slice (groupOf_slice l2 s)
  cases hsort : sortByDate (groupOf l2 s) with
  | nil =>
    rw [hsort] at hv
    cases hv
  | cons v0 rest =>
    rw [hsort] at hv
    rcases List.mem_cons.mp hv with hv0 | hv2
    · rw [hv0]
      exact hall v0 (hsort ▸ List.mem_cons_self _ _)
    · have hms : v.slice ∈ (firstDiffs v0 rest).map (fun v => v.slice) :=
        List.mem_map_of_mem _ hv2
      rw [firstDiffs_map_slice] at hms
      rcases List.mem_map.mp hms with ⟨w, hw, heq⟩
      rw [← heq]
      exact hall w (hsort ▸ List.mem_cons_of_mem _ hw)

theorem cumBlock_slice (l2 : List Vaccinated) (s : Slice) :
    ∀ v ∈ cumBlock l2 s, v.slice = s := by
  intro v hv
  unfold cumBlock at hv
  have hms : v.slice ∈ (cumsFrom 0 (sortByDate (groupOf l2 s))).map
      (fun v => v.slice) := List.mem_map_of_mem _ hv
  rw [cumsFrom_map_slice] at hms
  rcases List.mem_map.mp hms with ⟨w, hw, heq⟩
  rw [← heq]
  exact sortByDate_slice (groupOf_slice l2 s) w hw

theorem block_filter_of_slice {blocks : Slice → List Vaccinated}
    (hb : ∀ s2, ∀ v ∈ blocks s2, v.slice = s2) (s s2 : Slice) :
    (blocks s2).filter (fun v => decide (v.slice = s)) =
      if s2 = s then blocks s2 else [] := by
  by_cases hs : s2 = s
  · subst hs
    rw [if_pos rfl]
    apply List.filter_eq_self.mpr
    intro v hv
    simp [hb s2 v hv]
  · rw [if_neg hs]
    apply List.filter_eq_nil_iff.mpr
    intro v hv
    simp [hb s2 v hv, hs]

theorem flatMap_filter_slice (l2 : List Vaccinated)
    (blocks : Slice → List Vaccinated)
    (hb : ∀ s2, ∀ v ∈ blocks s2, v.slice = s2) (s : Slice) :
    ((slicesOf l2).flatMap blocks).filter (fun v => decide (v.slice = s)) =
      if s ∈ slicesOf l2 then blocks s else [] := by
  rw [List.filter_flatMap]
  have hnodup : (slicesOf l2).Nodup := by
    unfold slicesOf
    exact List.nodup_dedup _
  rw [flatMap_single hnodup _ s (fun s2 _ hne => by
    rw [block_filter_of_slice hb, if_neg hne])]
  rw [block_filter_of_slice hb, if_pos rfl]

theorem mem_slicesOf_iff (l2 : List Vaccinated) (s : Slice) :
    s ∈ slicesOf l2 ↔ ∃ v ∈ l2, v.slice = s := by
  unfold slicesOf
  rw [List.mem_dedup, List.mem_map]

theorem slicesOf_nc (l : List Vaccinated) (s : Slice) :
    s ∈ slicesOf (make_non_cumulative l) ↔ s ∈ slicesOf l := by
  constructor
  · intro hs
    rcases (mem_slicesOf_iff _ s).mp hs with ⟨v, hv, hvs⟩
    unfold make_non_cumulative at hv
    rcases List.mem_flatMap.mp hv with ⟨s2, hs2, hvb⟩
    have := ncBlock_slice l s2 v hvb
    rw [← hvs, this]
    exact hs2
  · intro hs
    rcases (mem_slicesOf_iff _ s).mp hs with ⟨v, hv, hvs⟩
    have hvg : v ∈ groupOf l s := List.mem_filter.mpr ⟨hv, by simp [hvs]⟩
    have hvgs : v ∈ sortByDate (groupOf l s) := (sortKey_perm _ _).mem_iff.mpr hvg
    cases hsort : sortByDate (groupOf l s) with
    | nil =>
      rw [hsort] at hvgs
      cases hvgs
    | cons v0 rest =>
      have hv0 : v0 ∈ make_non_cumulative l := by
        unfold make_non_cumulative
        refine List.mem_flatMap.mpr ⟨s, hs, ?_⟩
        unfold ncBlock
        rw [hsort]
        exact List.mem_cons_self _ _
      refine (mem_slicesOf_iff _ s).mpr ⟨v0, hv0, ?_⟩
      exact sortByDate_slice (groupOf_slice l s) v0 (hsort ▸ List.mem_cons_self _ _)

theorem cumsFrom_firstDiffs (prev : Vaccinated) (rest : List Vaccinated) :
    cumsFrom prev.vaccinated (firstDiffs prev rest) = rest := by
  induction rest generalizing prev with
  | nil => rfl
  | cons v2 rest ih =>
    unfold firstDiffs cumsFrom
    have h : prev.vaccinated + (v2.vaccinated - prev.vaccinated) = v2.vaccinated := by
      ring
    rw [h, ih v2]

/-- C6: on a collection whose per-slice series have pairwise-distinct
real_dates, converting to non-cumulative and back to cumulative
reproduces, for every slice, exactly the date-sorted original series —
in particular the counts are reproduced exactly. -/
theorem c6_roundtrip (l : List Vaccinated)
    (hnd : ∀ s ∈ l.map (fun v => v.slice),
      ((groupOf l s).map (fun v => v.source.real_date)).Nodup) :
    ∀ s : Slice,
      groupOf (make_cumulative (make_non_cumulative l)) s =
        sortByDate (groupOf l s) := by
  intro s
  have hcum : groupOf (make_cumulative (make_non_cumulative l)) s =
      if s ∈ slicesOf (make_non_cumulative l) then
        cumBlock (make_non_cumulative l) s
      else [] := by
    unfold make_cumulative groupOf
    exact flatMap_filter_slice _ _ (cumBlock_slice _) s
  by_cases hs : s ∈ slicesOf l
  · have hmem : s ∈ l.map (fun v => v.slice) := by
      unfold slicesOf at hs
      exact List.mem_dedup.mp hs
    have hnds := hnd s hmem
    have hperm := sortKey_perm (fun v => v.source.real_date) (groupOf l s)
    have hsorted : (sortByDate (groupOf l s)).Pairwise
        (fun a b => a.source.real_date ≤ b.source.real_date) :=
      sortKey_pairwise_le _ _
    have hndsort : ((sortByDate (groupOf l s)).map
        (fun v => v.source.real_date)).Nodup :=
      (List.Perm.nodup_iff (List.Perm.map _ hperm)).mpr hnds
    have hlt : (sortByDate (groupOf l s)).Pairwise
        (fun a b => a.source.real_date < b.source.real_date) := by
      have hne0 : List.Pairwise (fun a b => a ≠ b)
          ((sortByDate (groupOf l s)).map (fun v => v.source.real_date)) := hndsort
      have hne : (sortByDate (groupOf l s)).Pairwise
          (fun a b => a.source.real_date ≠ b.source.real_date) :=
        List.pairwise_map.mp hne0
      exact (hsorted.and hne).imp (fun h => lt_of_le_of_ne h.1 h.2)
    cases hsort : sortByDate (groupOf l s) with
    | nil =>
      exfalso
      rcases (mem_slicesOf_iff l s).mp hs with ⟨v, hv, hvs⟩
      have hvg : v ∈ groupOf l s := List.mem_filter.mpr ⟨hv, by simp [hvs]⟩
      have hvgs : v ∈ sortByDate (groupOf l s) := hperm.mem_iff.mpr hvg
      rw [hsort] at hvgs
      cases hvgs
    | cons v0 rest =>
      have hnc : ncBlock l s = v0 :: firstDiffs v0 rest := by
        unfold ncBlock
        rw [hsort]
      have hdates : (ncBlock l s).map (fun v => v.source.real_date) =
          (v0 :: rest).map (fun v => v.source.real_date) := by
        rw [hnc]
        simp only [List.map_cons]
        rw [firstDiffs_map_date]
      have hltnc : (ncBlock l s).Pairwise
          (fun a b => a.source.real_date < b.source.real_date) := by
        rw [hsort] at hlt
        have h1 : ((v0 :: rest).map (fun v => v.source.real_date)).Pairwise
            (· < ·) := List.pairwise_map.mpr hlt
        rw [← hdates] at h1
        exact List.pairwise_map.mp h1
      have hslnc : s ∈ slicesOf (make_non_cumulative l) := (slicesOf_nc l s).mpr hs
      have hgnc : groupOf (make_non_cumulative l) s = ncBlock l s := by
        unfold make_non_cumulative groupOf
        rw [flatMap_filter_slice _ _ (ncBlock_slice l) s, if_pos hs]
      rw [hcum, if_pos hslnc]
      unfold cumBlock
      rw [hgnc]
      unfold sortByDate
      rw [sortKey_of_pairwise_lt _ hltnc, hnc]
      unfold cumsFrom
      rw [zero_add, cumsFrom_firstDiffs v0 rest]
  · have hsnc : s ∉ slicesOf (make_non_cumulative l) :=
      fun h => hs ((slicesOf_nc l s).mp h)
    rw [hcum, if_neg hsnc]
    have hg : groupOf l s = [] := by
      apply List.filter_eq_nil_iff.mpr
      intro v hv hpred
      exact hs ((mem_slicesOf_iff l s).mpr ⟨v, hv, of_decide_eq_true hpred⟩)
    rw [hg]
    rfl

set_option maxRecDepth 4000 in
/-- Witness for C6 at a concrete unsorted one-slice series with
distinct dates: the round trip reproduces the date-sorted series
(counts 3, 7, 10). -/
theorem c6_witness :
    (∀ s ∈ exC6.map (fun v => v.slice),
      ((groupOf exC6 s).map (fun v => v.source.real_date)).Nodup) ∧
    groupOf (make_cumulative (make_non_cumulative exC6)) exC6slice =
      sortByDate (groupOf exC6 exC6slice) ∧
    (sortByDate (groupOf exC6 exC6slice)).map (fun v => v.vaccinated) =
      [3, 7, 10] :=
  ⟨by with_unfolding_all decide,
   c6_roundtrip exC6 (by with_unfolding_all decide) exC6slice,
   by with_unfolding_all decide⟩

set_option maxRecDepth 10000 in
/-- Witness for the amended C4: the zero-denominator input satisfies
the amended failure condition, and a peer reconstructing its aggregate
exactly passes the check with no emission. -/
theorem c4_witness :
    (∃ dim ∈ SLICE_DIMS, ∃ r ∈ dailyDates exC4, ∃ a ∈ aggregatesOn exC4 r dim,
      aggFailure exC4 r dim a) ∧
    perAggregate exC4b 4 Dim.dose exC4bagg = .ok [] :=
  ⟨(c4_error_amended.1 exC4).mp ⟨"ZeroDivisionError", by with_unfolding_all decide⟩,
   c4_error_amended.2 exC4b 4 Dim.dose exC4bagg (by with_unfolding_all decide)
     (Or.inl (by with_unfolding_all decide))⟩

end Vax
